import Mathlib

/-!
Shallow embedding of `src/cmsis_dsp_lib.c` (CMSIS DSP wrapper library).

Modelling conventions:
* `float32_t` samples are modelled as exact rationals `ℚ`; "up to
  floating-point rounding error" in the specification becomes exact equality.
* Caller-supplied buffers (`float32_t *`) are modelled as `List ℚ` holding the
  buffer contents; a struct field that stores a buffer pointer is modelled as
  the field holding the buffer's contents.
* The ARM CMSIS kernels (`arm_rfft_fast_f32`, `arm_rfft_fast_init_f32`,
  `arm_cmplx_mag_f32`, `arm_cmplx_mag_squared_f32`, `arm_mult_f32`,
  `arm_fir_init_f32`, `arm_fir_f32`) and `cos` from libm are external
  collaborators of this repository (the spec excludes them and only states
  their contracts), so they enter the embedding either as explicit function
  parameters or as definitions modelled from the spec, as noted at each use.
-/

/-- `memcpy(dst, src, n * sizeof(float32_t))` on buffers: the first `n`
cells of `dst` are replaced by the first `n` cells of `src`, the rest of
`dst` is kept. -/
def listOverwrite (dst src : List ℚ) (n : ℕ) : List ℚ :=
  src.take n ++ dst.drop n

/-- `rfft_f32_TypeDef` from the library header: transform length plus the two
scratch buffers (`tmpBuffer_1`, `tmpBuffer_2`).  The CMSIS kernel instance
(`arm_struct`) carries no information visible to this embedding beyond the
status returned by its initializer, so it is not stored. -/
structure rfft_f32_TypeDef where
  length : ℕ
  tmpBuffer_1 : List ℚ
  tmpBuffer_2 : List ℚ
deriving DecidableEq

/-- The supported real-FFT lengths `[32, 64, 128, ..., 4096]`
(doc comment of the FFT block in `cmsis_dsp_lib.c`). -/
def supportedFFTLength (n : ℕ) : Bool :=
  n == 32 || n == 64 || n == 128 || n == 256 || n == 512 ||
  n == 1024 || n == 2048 || n == 4096

/-- `CMSIS_DSP_real_FFT_f32_blockInit`: stores `setLength`, `set_tmp1`,
`set_tmp2` into the struct and returns the status of
`arm_rfft_fast_init_f32`.  The external kernel initializer is modelled as an
arbitrary status function `kinit : ℕ → ℤ` of the requested length
(`0` = `ARM_MATH_SUCCESS`). -/
def CMSIS_DSP_real_FFT_f32_blockInit (kinit : ℕ → ℤ)
    (user_RFFT_struct : rfft_f32_TypeDef)
    (set_tmp1 set_tmp2 : List ℚ) (setLength : ℕ) :
    rfft_f32_TypeDef × ℤ :=
  ({ user_RFFT_struct with
      length := setLength, tmpBuffer_1 := set_tmp1, tmpBuffer_2 := set_tmp2 },
   kinit setLength)

/-- `CMSIS_DSP_real_FFT_f32_apply`: `memcpy` the real input into
`tmpBuffer_1` (`length` samples), then run the forward kernel on that scratch
buffer into the output buffer.  The external forward kernel
`arm_rfft_fast_f32 (..., REAL_FFT_SELECT_VAL)` is the parameter `K`.
Returns the updated struct and the contents written to `fftOut`. -/
def CMSIS_DSP_real_FFT_f32_apply (K : List ℚ → List ℚ)
    (user_RFFT_struct : rfft_f32_TypeDef) (rDataIn : List ℚ) :
    rfft_f32_TypeDef × List ℚ :=
  let tmp1 := listOverwrite user_RFFT_struct.tmpBuffer_1 rDataIn
      user_RFFT_struct.length
  ({ user_RFFT_struct with tmpBuffer_1 := tmp1 }, K tmp1)

/-- `CMSIS_DSP_real_IFFT_f32_apply`: same shape as the forward wrapper but
with the inverse kernel (`REAL_IFFT_SELECT_VAL`), here the parameter
`Kinv`. -/
def CMSIS_DSP_real_IFFT_f32_apply (Kinv : List ℚ → List ℚ)
    (user_RFFT_struct : rfft_f32_TypeDef) (fftIn : List ℚ) :
    rfft_f32_TypeDef × List ℚ :=
  let tmp1 := listOverwrite user_RFFT_struct.tmpBuffer_1 fftIn
      user_RFFT_struct.length
  ({ user_RFFT_struct with tmpBuffer_1 := tmp1 }, Kinv tmp1)

/-- The contents of `tmpBuffer_2` after the FFT stage shared by
`CMSIS_DSP_magnitude_FFT_f32_apply` and
`CMSIS_DSP_magnitudeSquare_FFT_f32_apply`: the input is copied into
`tmpBuffer_1` and the forward kernel writes into `tmpBuffer_2`. -/
def fftScratch2 (K : List ℚ → List ℚ) (blk : rfft_f32_TypeDef)
    (rDataIn : List ℚ) : List ℚ :=
  listOverwrite blk.tmpBuffer_2
    (K (listOverwrite blk.tmpBuffer_1 rDataIn blk.length)) blk.length

/-- Modelled from the spec: `arm_cmplx_mag_f32(src, dst, halfLength)` writes
`dst[k] = sqrt(re[k]^2 + im[k]^2)` for `k < halfLength`, reading the packed
spectrum `{re[0], im[0], re[1], im[1], ...}` from `src`.  The square root of
libm/CMSIS is the parameter `s : ℚ → ℚ`. -/
def arm_cmplx_mag_f32 (s : ℚ → ℚ) (src : List ℚ) (halfLength : ℕ) :
    List ℚ :=
  (List.range halfLength).map fun k =>
    s ((src.getD (2 * k) 0) ^ 2 + (src.getD (2 * k + 1) 0) ^ 2)

/-- Modelled from the spec: `arm_cmplx_mag_squared_f32(src, dst, halfLength)`
writes `dst[k] = re[k]^2 + im[k]^2` for `k < halfLength`. -/
def arm_cmplx_mag_squared_f32 (src : List ℚ) (halfLength : ℕ) : List ℚ :=
  (List.range halfLength).map fun k =>
    (src.getD (2 * k) 0) ^ 2 + (src.getD (2 * k + 1) 0) ^ 2

/-- `CMSIS_DSP_magnitude_FFT_f32_apply`: copy the real input into
`tmpBuffer_1`, forward-transform into `tmpBuffer_2`, then
`arm_cmplx_mag_f32(tmpBuffer_2, magFFTOut, length/2)`.  Returns the updated
struct and the contents written to `magFFTOut`. -/
def CMSIS_DSP_magnitude_FFT_f32_apply (K : List ℚ → List ℚ) (s : ℚ → ℚ)
    (user_RFFT_struct : rfft_f32_TypeDef) (rDataIn : List ℚ) :
    rfft_f32_TypeDef × List ℚ :=
  let tmp1 := listOverwrite user_RFFT_struct.tmpBuffer_1 rDataIn
      user_RFFT_struct.length
  let tmp2 := fftScratch2 K user_RFFT_struct rDataIn
  ({ user_RFFT_struct with tmpBuffer_1 := tmp1, tmpBuffer_2 := tmp2 },
   arm_cmplx_mag_f32 s tmp2 (user_RFFT_struct.length / 2))

/-- `CMSIS_DSP_magnitudeSquare_FFT_f32_apply`: same FFT stage, then
`arm_cmplx_mag_squared_f32(tmpBuffer_2, magSqFFTOut, length/2)`. -/
def CMSIS_DSP_magnitudeSquare_FFT_f32_apply (K : List ℚ → List ℚ)
    (user_RFFT_struct : rfft_f32_TypeDef) (rDataIn : List ℚ) :
    rfft_f32_TypeDef × List ℚ :=
  let tmp1 := listOverwrite user_RFFT_struct.tmpBuffer_1 rDataIn
      user_RFFT_struct.length
  let tmp2 := fftScratch2 K user_RFFT_struct rDataIn
  ({ user_RFFT_struct with tmpBuffer_1 := tmp1, tmpBuffer_2 := tmp2 },
   arm_cmplx_mag_squared_f32 tmp2 (user_RFFT_struct.length / 2))

/-- The spec's own description of the magnitude operation, for comparison
with the code: "output: MagnitudeSequence of length halfLength, where
output[k] = sqrt(real[k]^2 + imag[k]^2)", computed from the supplied packed
spectrum alone. -/
def magnitudeOfSpectrum (s : ℚ → ℚ) (spectrum : List ℚ) (halfLength : ℕ) :
    List ℚ :=
  (List.range halfLength).map fun k =>
    s ((spectrum.getD (2 * k) 0) ^ 2 + (spectrum.getD (2 * k + 1) 0) ^ 2)

/- Window-type selector macros come from the library header `cmsis_dsp_lib.h`
(declarations only, not under `src/`); the code relies only on the three
selectors being distinct, so they are modelled as distinct naturals. -/

def WINDOW_TYPE_RECTANGULAR : ℕ := 0

def WINDOW_TYPE_HANNING : ℕ := 1

def WINDOW_TYPE_HAMMING : ℕ := 2

/-- `window_TypeDef` from the library header: coefficient buffer (`value`),
window length and window-type selector. -/
structure window_TypeDef where
  value : List ℚ
  length : ℕ
  type : ℕ
deriving DecidableEq

/-- The loop `for(n=0; n<length; n++) set_valueBuf[n] = f(n);`: cells below
`length` are overwritten with `f n`, the rest of the buffer is kept. -/
def writeWindow (f : ℕ → ℚ) (buf : List ℚ) (length : ℕ) : List ℚ :=
  (List.range length).map f ++ buf.drop length

/-- `CMSIS_DSP_windowFunction_blockInit`: stores buffer, length and type into
the struct, then fills the coefficient buffer according to the type; a type
that is none of the three known selectors fills nothing.  The function
returns `void` in C — the returned struct (whose `value` field is the
coefficient buffer's contents after the call) is its entire effect.  The
C code evaluates `cos(2*M_PI*n/length)`; the libm cosine is modelled by the
parameter `c`, where `c q` stands for `cos(π·q)`, so that the angle
`2*M_PI*n/length` becomes the exact rational argument `2*n/length`. -/
def CMSIS_DSP_windowFunction_blockInit (c : ℚ → ℚ) (set_valueBuf : List ℚ)
    (setWindowType : ℕ) (setLength : ℕ) : window_TypeDef :=
  if setWindowType = WINDOW_TYPE_RECTANGULAR then
    ⟨writeWindow (fun _ => 1) set_valueBuf setLength, setLength, setWindowType⟩
  else if setWindowType = WINDOW_TYPE_HANNING then
    ⟨writeWindow
        (fun n => 0.5 * (1 - c (2 * (n : ℚ) / (setLength : ℚ))))
        set_valueBuf setLength,
      setLength, setWindowType⟩
  else if setWindowType = WINDOW_TYPE_HAMMING then
    ⟨writeWindow
        (fun n => 0.54 - 0.46 * c (2 * (n : ℚ) / (setLength : ℚ)))
        set_valueBuf setLength,
      setLength, setWindowType⟩
  else
    ⟨set_valueBuf, setLength, setWindowType⟩

/-- The Hanning formula as the spec writes it:
`w[n] = 0.5 * (1 − cos(2π·n/length))`, with `c q` standing for `cos(π·q)`. -/
def hanning_spec (c : ℚ → ℚ) (length n : ℕ) : ℚ :=
  0.5 * (1 - c (2 * (n : ℚ) / (length : ℚ)))

/-- The Hamming formula as the spec writes it:
`w[n] = 0.54 − 0.46 * cos(2π·n/length)`, with `c q` standing for `cos(π·q)`. -/
def hamming_spec (c : ℚ → ℚ) (length n : ℕ) : ℚ :=
  0.54 - 0.46 * c (2 * (n : ℚ) / (length : ℚ))

/-- `CMSIS_DSP_windowFunciton_apply` (name as in the source): calls
`arm_mult_f32(pInput, value, pOutput, length)`.  The external kernel is
modelled from the spec: `output[n] = input[n] * coefficientBuffer[n]` for
`n` in `[0, length)`. -/
def CMSIS_DSP_windowFunciton_apply (user_w_struct : window_TypeDef)
    (pInput : List ℚ) : List ℚ :=
  (List.range user_w_struct.length).map fun n =>
    pInput.getD n 0 * user_w_struct.value.getD n 0

/-- `arm_fir_instance_f32` (CMSIS struct): tap count, state-buffer pointer,
coefficient-buffer pointer. -/
structure arm_fir_instance_f32 where
  numTaps : ℕ
  pState : List ℚ
  pCoeffs : List ℚ
deriving DecidableEq

/-- `memset(buf, 0, n * sizeof(float32_t))`: the first `n` cells become `0`,
the rest of the buffer is kept. -/
def zeroFill (buf : List ℚ) (n : ℕ) : List ℚ :=
  List.replicate n 0 ++ buf.drop n

/-- Modelled from the spec: `arm_fir_init_f32` (external CMSIS kernel) binds
the buffers and zero-fills the state buffer of length
`numTaps + blockSize − 1`. -/
def arm_fir_init_f32 (numTaps : ℕ) (pCoeffs pState : List ℚ)
    (blockSize : ℕ) : arm_fir_instance_f32 :=
  ⟨numTaps, zeroFill pState (numTaps + blockSize - 1), pCoeffs⟩

/-- `fir_f32_TypeDef` from the library header: configuration scalars, the
three buffers and the embedded CMSIS instance.  `pState` holds the state
buffer's contents (the same memory the CMSIS instance points to). -/
structure fir_f32_TypeDef where
  numTap : ℕ
  blockSize : ℕ
  pCoeff : List ℚ
  pState : List ℚ
  tmpBuffer : List ℚ
  arm_struct : arm_fir_instance_f32
deriving DecidableEq

/-- `CMSIS_DSP_FIR_f32_blockInit`: stores the five arguments into the struct
and calls `arm_fir_init_f32`, which zero-fills the state buffer (the struct's
`pState` field holds that buffer's contents after the call).  The function
returns `void` in C — the returned struct is its entire effect. -/
def CMSIS_DSP_FIR_f32_blockInit (user_FIR_struct : fir_f32_TypeDef)
    (set_pCoeff set_pState set_tmp : List ℚ)
    (setNumTap : ℕ) (setBlockSize : ℕ) : fir_f32_TypeDef :=
  { user_FIR_struct with
      numTap := setNumTap
      blockSize := setBlockSize
      pCoeff := set_pCoeff
      pState := zeroFill set_pState (setNumTap + setBlockSize - 1)
      tmpBuffer := set_tmp
      arm_struct := arm_fir_init_f32 setNumTap set_pCoeff set_pState
        setBlockSize }

/- `CMSIS_DSP_FIR_f32_apply`'s claim is about pointer aliasing (input buffer
== output buffer), so the apply path is embedded over a flat addressed
memory of `float32_t` cells. -/

/-- Flat memory of `float32_t` cells, addressed by cell index. -/
abbrev Mem : Type := ℕ → ℚ

/-- Read `n` consecutive cells starting at `b`. -/
def readList (m : Mem) (b n : ℕ) : List ℚ :=
  (List.range n).map fun i => m (b + i)

/-- Write the cells of `vs` consecutively starting at `b`. -/
def writeList (m : Mem) (b : ℕ) : List ℚ → Mem
  | [] => m
  | v :: rest => writeList (Function.update m b v) (b + 1) rest

/-- Two address ranges `[b1, b1+n1)` and `[b2, b2+n2)` do not overlap. -/
def regionsDisjoint (b1 n1 b2 n2 : ℕ) : Prop :=
  b1 + n1 ≤ b2 ∨ b2 + n2 ≤ b1

instance (b1 n1 b2 n2 : ℕ) : Decidable (regionsDisjoint b1 n1 b2 n2) :=
  inferInstanceAs (Decidable (_ ∨ _))

/-- The FIR input stream extended backwards into the previous block's tail:
index `i ≥ 0` reads the current block's sample `src[i]`; index `i < 0` reads
the retained history `state[T−1+i]` (spec: "x extends backward into the
previous block's tail (retained in stateBuffer)"). -/
def firHistory (state src : List ℚ) (T : ℕ) (i : ℤ) : ℚ :=
  if 0 ≤ i then src.getD i.toNat 0 else state.getD (T - 1 - (-i).toNat) 0

/-- The block of FIR outputs, per the spec:
`y[n] = Σ_{k=0}^{T-1} coeff[k] * x[n-k]`, with the coefficient buffer stored
in time-reversed order (`coeff` index `T−1−k` holds `b[k]`). -/
def firOutputs (coeff state src : List ℚ) (T B : ℕ) : List ℚ :=
  (List.range B).map fun (n : ℕ) =>
    ∑ k ∈ Finset.range T,
      coeff.getD (T - 1 - k) 0 * firHistory state src T ((n : ℤ) - (k : ℤ))

/-- The history retained for the next block: the last `T−1` samples of the
extended stream, so that the next call continues the convolution as if the
stream were contiguous. -/
def firNewHistory (state src : List ℚ) (T B : ℕ) : List ℚ :=
  (List.range (T - 1)).map fun (j : ℕ) =>
    firHistory state src T ((B : ℤ) - ((T : ℤ) - 1) + (j : ℤ))

/-- Region layout of an initialized FIR block in flat memory: tap count,
block size and the base addresses of the coefficient buffer (length
`numTap`), state buffer (length `numTap + blockSize − 1`) and scratch buffer
(length `blockSize`). -/
structure firMemBlock where
  numTap : ℕ
  blockSize : ℕ
  coeffBase : ℕ
  stateBase : ℕ
  tmpBase : ℕ
deriving DecidableEq

/-- Modelled from the spec: `arm_fir_f32` (external CMSIS kernel) reads the
coefficients, the retained history and the `blockSize` source samples,
writes the `blockSize` outputs at `dstBase`, and updates the retained
history in the state buffer.  The kernel never reads the destination
buffer. -/
def arm_fir_f32 (m : Mem) (blk : firMemBlock) (srcBase dstBase : ℕ) : Mem :=
  let T := blk.numTap
  let B := blk.blockSize
  let coeff := readList m blk.coeffBase T
  let state := readList m blk.stateBase (T - 1)
  let src := readList m srcBase B
  let m1 := writeList m dstBase (firOutputs coeff state src T B)
  writeList m1 blk.stateBase (firNewHistory state src T B)

/-- The memory after the `memcpy` at the top of `CMSIS_DSP_FIR_f32_apply`:
the `blockSize` input samples are copied into the scratch buffer. -/
def firScratchMem (m : Mem) (blk : firMemBlock) (pInput : ℕ) : Mem :=
  writeList m blk.tmpBase (readList m pInput blk.blockSize)

/-- `CMSIS_DSP_FIR_f32_apply`: `memcpy` the `blockSize` input samples into
the scratch buffer, then run `arm_fir_f32` with the scratch buffer as its
source and `pOutput` as its destination. -/
def CMSIS_DSP_FIR_f32_apply (m : Mem) (blk : firMemBlock)
    (pInput pOutput : ℕ) : Mem :=
  arm_fir_f32 (firScratchMem m blk pInput) blk blk.tmpBase pOutput

/-! Helper lemmas about the buffer and memory primitives. -/

theorem listOverwrite_eq {dst src : List ℚ} {n : ℕ}
    (hs : src.length = n) (hd : dst.length = n) :
    listOverwrite dst src n = src := by
  unfold listOverwrite
  rw [List.take_of_length_le hs.le, List.drop_eq_nil_of_le hd.le,
    List.append_nil]

theorem getD_range_map (f : ℕ → ℚ) {k n : ℕ} (h : k < n) :
    ((List.range n).map f).getD k 0 = f k := by
  rw [List.getD_eq_getElem?_getD, List.getElem?_map, List.getElem?_range h]
  rfl

theorem writeWindow_getD (f : ℕ → ℚ) (buf : List ℚ) {n L : ℕ} (h : n < L) :
    (writeWindow f buf L).getD n 0 = f n := by
  unfold writeWindow
  rw [List.getD_eq_getElem?_getD,
    List.getElem?_append_left (by simpa using h),
    ← List.getD_eq_getElem?_getD]
  exact getD_range_map f h

theorem readList_length (m : Mem) (b n : ℕ) : (readList m b n).length = n := by
  simp [readList]

theorem writeList_apply_lt (vs : List ℚ) (m : Mem) (b a : ℕ) (h : a < b) :
    writeList m b vs a = m a := by
  induction vs generalizing m b with
  | nil => rfl
  | cons v rest ih =>
    rw [writeList, ih _ _ (Nat.lt_succ_of_lt h)]
    exact Function.update_noteq (Nat.ne_of_lt h) _ _

theorem writeList_apply_ge (vs : List ℚ) (m : Mem) (b a : ℕ)
    (h : b + vs.length ≤ a) : writeList m b vs a = m a := by
  induction vs generalizing m b with
  | nil => rfl
  | cons v rest ih =>
    rw [writeList, ih]
    · exact Function.update_noteq (by simp at h; omega) _ _
    · simp at h ⊢; omega

theorem readList_writeList_of_disjoint (m : Mem) (b : ℕ) (vs : List ℚ)
    (b' n' : ℕ) (h : regionsDisjoint b vs.length b' n') :
    readList (writeList m b vs) b' n' = readList m b' n' := by
  unfold readList
  apply List.map_congr_left
  intro i hi
  rw [List.mem_range] at hi
  rcases h with h | h
  · exact writeList_apply_ge vs m b _ (by omega)
  · exact writeList_apply_lt vs m b _ (by omega)

theorem readList_writeList_self (vs : List ℚ) (m : Mem) (b : ℕ) :
    readList (writeList m b vs) b vs.length = vs := by
  induction vs generalizing m b with
  | nil => rfl
  | cons v rest ih =>
    rw [writeList]
    unfold readList
    rw [List.length_cons, List.range_succ_eq_map, List.map_cons, List.map_map]
    have hhead : writeList (Function.update m b v) (b + 1) rest b = v := by
      rw [writeList_apply_lt _ _ _ _ (Nat.lt_succ_self b)]
      simp
    have htail :
        (List.range rest.length).map
            ((fun i => writeList (Function.update m b v) (b + 1) rest (b + i))
              ∘ Nat.succ)
          = rest := by
      have hmap : ∀ i,
          ((fun i => writeList (Function.update m b v) (b + 1) rest (b + i))
              ∘ Nat.succ) i
            = writeList (Function.update m b v) (b + 1) rest ((b + 1) + i) := by
        intro i
        simp [Function.comp]
        ring_nf
      calc (List.range rest.length).map
            ((fun i => writeList (Function.update m b v) (b + 1) rest (b + i))
              ∘ Nat.succ)
          = (List.range rest.length).map
              (fun i => writeList (Function.update m b v) (b + 1) rest
                ((b + 1) + i)) := by
            exact List.map_congr_left fun i _ => hmap i
        _ = rest := ih (Function.update m b v) (b + 1)
    simp only [Nat.add_zero] at hhead ⊢
    rw [hhead, htail]

theorem regionsDisjoint_mono_left {b1 n1 n1' b2 n2 : ℕ} (hn : n1' ≤ n1)
    (h : regionsDisjoint b1 n1 b2 n2) : regionsDisjoint b1 n1' b2 n2 := by
  rcases h with h | h
  · exact Or.inl (by omega)
  · exact Or.inr h

theorem regionsDisjoint_symm {b1 n1 b2 n2 : ℕ}
    (h : regionsDisjoint b1 n1 b2 n2) : regionsDisjoint b2 n2 b1 n1 :=
  h.symm

theorem firOutputs_length (coeff state src : List ℚ) (T B : ℕ) :
    (firOutputs coeff state src T B).length = B := by
  unfold firOutputs
  rw [List.length_map, List.length_range]

theorem firNewHistory_length (state src : List ℚ) (T B : ℕ) :
    (firNewHistory state src T B).length = T - 1 := by
  unfold firNewHistory
  rw [List.length_map, List.length_range]

/-! Claim theorems. -/

/-- C5: for every window length `L > 0` and every index `n < L`,
initializing a window block with the Hanning kind sets coefficient
`w[n] = 0.5 * (1 - cos(2*pi*n/L))`. -/
theorem C5_hanning_window_coefficient (c : ℚ → ℚ) (buf : List ℚ) (L n : ℕ)
    (hL : 0 < L) (hn : n < L) :
    (CMSIS_DSP_windowFunction_blockInit c buf
        WINDOW_TYPE_HANNING L).value.getD n 0
      = hanning_spec c L n := by
  unfold CMSIS_DSP_windowFunction_blockInit
  rw [if_neg (by decide), if_pos rfl]
  exact writeWindow_getD _ buf hn

/-- Witness for C5 at `c = id`, `L = 4`, `n = 1`. -/
theorem C5_witness :
    0 < 4 ∧ 1 < 4 ∧
    (CMSIS_DSP_windowFunction_blockInit (fun q => q) [0, 0, 0, 0]
        WINDOW_TYPE_HANNING 4).value.getD 1 0
      = hanning_spec (fun q => q) 4 1 :=
  ⟨by decide, by decide,
    C5_hanning_window_coefficient (fun q => q) [0, 0, 0, 0] 4 1
      (by decide) (by decide)⟩

/-- C6: for every window length `L > 0` and every index `n < L`,
initializing a window block with the Hamming kind sets coefficient
`w[n] = 0.54 - 0.46 * cos(2*pi*n/L)`. -/
theorem C6_hamming_window_coefficient (c : ℚ → ℚ) (buf : List ℚ) (L n : ℕ)
    (hL : 0 < L) (hn : n < L) :
    (CMSIS_DSP_windowFunction_blockInit c buf
        WINDOW_TYPE_HAMMING L).value.getD n 0
      = hamming_spec c L n := by
  unfold CMSIS_DSP_windowFunction_blockInit
  rw [if_neg (by decide), if_neg (by decide), if_pos rfl]
  exact writeWindow_getD _ buf hn

/-- Witness for C6 at `c = id`, `L = 8`, `n = 2`. -/
theorem C6_witness :
    0 < 8 ∧ 2 < 8 ∧
    (CMSIS_DSP_windowFunction_blockInit (fun q => q)
        [0, 0, 0, 0, 0, 0, 0, 0] WINDOW_TYPE_HAMMING 8).value.getD 2 0
      = hamming_spec (fun q => q) 8 2 :=
  ⟨by decide, by decide,
    C6_hamming_window_coefficient (fun q => q) [0, 0, 0, 0, 0, 0, 0, 0] 8 2
      (by decide) (by decide)⟩

/-- C3 counterexample: called with length zero, window initialization does
not fail with an `InvalidLength` error returned to the caller — the C
function returns `void` (no status channel at all) and simply completes,
storing the zero length and leaving the coefficient buffer unchanged. -/
theorem C3_counterexample :
    CMSIS_DSP_windowFunction_blockInit (fun q => q) [1, 2]
        WINDOW_TYPE_HANNING 0
      = ⟨[1, 2], 0, WINDOW_TYPE_HANNING⟩ := by
  decide

/-- C3 (amended): window initialization returns no status and performs no
length validation; called with length zero it completes normally for every
window kind, storing the kind, the zero length and the buffer into the
block and writing nothing into the coefficient buffer. -/
theorem C3_amended_zero_length_completes (c : ℚ → ℚ) (buf : List ℚ)
    (t : ℕ) :
    CMSIS_DSP_windowFunction_blockInit c buf t 0 = ⟨buf, 0, t⟩ := by
  unfold CMSIS_DSP_windowFunction_blockInit writeWindow
  split_ifs <;> simp

/-- C4 counterexample: called with `tapCount = 0`, FIR initialization does
not fail with an `ArgumentError` returned to the caller — the C function
returns `void` (no status channel at all) and simply stores the
configuration. -/
theorem C4_counterexample :
    CMSIS_DSP_FIR_f32_blockInit ⟨0, 0, [], [], [], ⟨0, [], []⟩⟩
        [5] [7, 7] [9] 0 1
      = ⟨0, 1, [5], [7, 7], [9], ⟨0, [7, 7], [5]⟩⟩ := by
  decide

/-- C4 (amended): FIR initialization performs no validation and returns no
status; for every tap count, block size and buffers (with the state buffer
of its specified length `tapCount + blockSize - 1`) it stores the
configuration and zero-fills the state buffer. -/
theorem C4_amended_blockInit_zero_fills (blk : fir_f32_TypeDef)
    (coeff state tmp : List ℚ) (T B : ℕ)
    (hstate : state.length = T + B - 1) :
    CMSIS_DSP_FIR_f32_blockInit blk coeff state tmp T B
      = ⟨T, B, coeff, List.replicate (T + B - 1) 0, tmp,
          ⟨T, List.replicate (T + B - 1) 0, coeff⟩⟩ := by
  have hz : zeroFill state (T + B - 1) = List.replicate (T + B - 1) 0 := by
    unfold zeroFill
    rw [List.drop_eq_nil_of_le hstate.le, List.append_nil]
  unfold CMSIS_DSP_FIR_f32_blockInit arm_fir_init_f32
  rw [hz]

/-- Witness for C4 (amended) at `T = 2`, `B = 3`. -/
theorem C4_witness :
    ([1, 2, 3, 4] : List ℚ).length = 2 + 3 - 1 ∧
    CMSIS_DSP_FIR_f32_blockInit ⟨0, 0, [], [], [], ⟨0, [], []⟩⟩
        [1, -1] [1, 2, 3, 4] [0, 0, 0] 2 3
      = ⟨2, 3, [1, -1], List.replicate (2 + 3 - 1) 0, [0, 0, 0],
          ⟨2, List.replicate (2 + 3 - 1) 0, [1, -1]⟩⟩ :=
  ⟨by decide,
    C4_amended_blockInit_zero_fills ⟨0, 0, [], [], [], ⟨0, [], []⟩⟩
      [1, -1] [1, 2, 3, 4] [0, 0, 0] 2 3 (by decide)⟩

/-- C9: for every coefficient buffer, length and window-type selector that
is none of the three known selectors, initialization stores the selector,
length and buffer into the block, leaves every element of the coefficient
buffer unchanged, and a subsequent apply multiplies the input by the values
the buffer previously held. -/
theorem C9_unknown_type_keeps_buffer (c : ℚ → ℚ) (buf : List ℚ)
    (t L : ℕ) (input : List ℚ)
    (h1 : t ≠ WINDOW_TYPE_RECTANGULAR) (h2 : t ≠ WINDOW_TYPE_HANNING)
    (h3 : t ≠ WINDOW_TYPE_HAMMING) :
    CMSIS_DSP_windowFunction_blockInit c buf t L = ⟨buf, L, t⟩ ∧
    CMSIS_DSP_windowFunciton_apply
        (CMSIS_DSP_windowFunction_blockInit c buf t L) input
      = (List.range L).map (fun n => input.getD n 0 * buf.getD n 0) := by
  have hinit : CMSIS_DSP_windowFunction_blockInit c buf t L = ⟨buf, L, t⟩ := by
    unfold CMSIS_DSP_windowFunction_blockInit
    rw [if_neg h1, if_neg h2, if_neg h3]
  exact ⟨hinit, by rw [hinit]; rfl⟩

/-- Witness for C9 at selector `7`. -/
theorem C9_witness :
    (7 ≠ WINDOW_TYPE_RECTANGULAR ∧ 7 ≠ WINDOW_TYPE_HANNING ∧
      7 ≠ WINDOW_TYPE_HAMMING) ∧
    (CMSIS_DSP_windowFunction_blockInit (fun q => q) [2, 3] 7 2
        = ⟨[2, 3], 2, 7⟩ ∧
     CMSIS_DSP_windowFunciton_apply
         (CMSIS_DSP_windowFunction_blockInit (fun q => q) [2, 3] 7 2) [5, 7]
       = (List.range 2).map
           (fun n => ([5, 7] : List ℚ).getD n 0 * ([2, 3] : List ℚ).getD n 0)) :=
  ⟨⟨by decide, by decide, by decide⟩,
    C9_unknown_type_keeps_buffer (fun q => q) [2, 3] 7 2 [5, 7]
      (by decide) (by decide) (by decide)⟩

/-- C10: real-FFT block initialization stores the length and both scratch
buffers into the block struct unconditionally; whenever the kernel
initializer reports failure the returned status is non-success and the
block nevertheless already holds the new configuration — initialization is
not atomic. -/
theorem C10_blockInit_not_atomic (kinit : ℕ → ℤ)
    (blk : rfft_f32_TypeDef) (t1 t2 : List ℚ) (len : ℕ)
    (hfail : kinit len ≠ 0) :
    (CMSIS_DSP_real_FFT_f32_blockInit kinit blk t1 t2 len).2 ≠ 0 ∧
    (CMSIS_DSP_real_FFT_f32_blockInit kinit blk t1 t2 len).1
      = ⟨len, t1, t2⟩ :=
  ⟨hfail, rfl⟩

/-- Witness for C10 with a kernel initializer that always fails with
`ARM_MATH_LENGTH_ERROR = -2` and an unsupported length `7`. -/
theorem C10_witness :
    ((fun _ : ℕ => (-2 : ℤ)) 7 ≠ 0) ∧
    ((CMSIS_DSP_real_FFT_f32_blockInit (fun _ => (-2 : ℤ))
        ⟨0, [], []⟩ [1] [2] 7).2 ≠ 0 ∧
     (CMSIS_DSP_real_FFT_f32_blockInit (fun _ => (-2 : ℤ))
        ⟨0, [], []⟩ [1] [2] 7).1 = ⟨7, [1], [2]⟩) :=
  ⟨by decide,
    C10_blockInit_not_atomic (fun _ => (-2 : ℤ)) ⟨0, [], []⟩ [1] [2] 7
      (by decide)⟩

/-- C1 counterexample: the magnitude operation does not compute
`sqrt(real[k]^2 + imag[k]^2)` from the supplied buffer alone — it runs the
forward FFT kernel first.  With a kernel that maps the input `[3, 4]` to the
spectrum `[6, 8]` and a square-root model fixing `sqrt 25 = 5` and
`sqrt 100 = 10`, the code yields `[10]` while the claim predicts `[5]`. -/
theorem C1_counterexample :
    (CMSIS_DSP_magnitude_FFT_f32_apply (fun _ => [6, 8])
        (fun q => if q = 100 then 10 else if q = 25 then 5 else 0)
        ⟨2, [0, 0], [0, 0]⟩ [3, 4]).2
      ≠ magnitudeOfSpectrum
          (fun q => if q = 100 then 10 else if q = 25 then 5 else 0)
          [3, 4] 1 := by
  norm_num [CMSIS_DSP_magnitude_FFT_f32_apply, fftScratch2, listOverwrite,
    arm_cmplx_mag_f32, magnitudeOfSpectrum, List.range_succ]

/-- C1 (amended): the magnitude operation is the forward transform followed
by pure post-processing over the packed spectrum format: its output equals
the spec's magnitude formula applied, for the first `length/2` bins, to the
spectrum produced by the forward transform of the supplied input — not to
the supplied input buffer itself. -/
theorem C1_amended_magnitude_of_forward_fft (K : List ℚ → List ℚ)
    (s : ℚ → ℚ) (blk : rfft_f32_TypeDef) (x : List ℚ)
    (hbuf2 : blk.tmpBuffer_2.length = blk.length)
    (hKlen : (K (listOverwrite blk.tmpBuffer_1 x blk.length)).length
      = blk.length) :
    (CMSIS_DSP_magnitude_FFT_f32_apply K s blk x).2
      = magnitudeOfSpectrum s ((CMSIS_DSP_real_FFT_f32_apply K blk x).2)
          (blk.length / 2) := by
  have h : fftScratch2 K blk x
      = K (listOverwrite blk.tmpBuffer_1 x blk.length) := by
    unfold fftScratch2
    exact listOverwrite_eq hKlen hbuf2
  show arm_cmplx_mag_f32 s (fftScratch2 K blk x) (blk.length / 2)
      = magnitudeOfSpectrum s (K (listOverwrite blk.tmpBuffer_1 x blk.length))
          (blk.length / 2)
  rw [h]
  rfl

/-- Witness for C1 (amended) with the concrete kernel of the
counterexample. -/
theorem C1_witness :
    (([0, 0] : List ℚ).length = 2 ∧ ([6, 8] : List ℚ).length = 2) ∧
    (CMSIS_DSP_magnitude_FFT_f32_apply (fun _ => [6, 8])
        (fun q => if q = 100 then 10 else if q = 25 then 5 else 0)
        ⟨2, [0, 0], [0, 0]⟩ [3, 4]).2
      = magnitudeOfSpectrum
          (fun q => if q = 100 then 10 else if q = 25 then 5 else 0)
          ((CMSIS_DSP_real_FFT_f32_apply (fun _ => [6, 8])
              ⟨2, [0, 0], [0, 0]⟩ [3, 4]).2) 1 :=
  ⟨⟨by decide, by decide⟩,
    C1_amended_magnitude_of_forward_fft (fun _ => [6, 8])
      (fun q => if q = 100 then 10 else if q = 25 then 5 else 0)
      ⟨2, [0, 0], [0, 0]⟩ [3, 4] (by decide) (by decide)⟩

/-- C2: for every real sample buffer `x` of a configured supported length,
forward transform followed by inverse transform on the same configured
block returns `x`.  The external FFT kernel pair is modelled by its spec
contract: the forward kernel preserves the length and the inverse kernel
undoes it ("round-trip up to floating-point rounding error", exact over
`ℚ`). -/
theorem C2_fft_ifft_round_trip (K Kinv : List ℚ → List ℚ)
    (blk : rfft_f32_TypeDef) (x : List ℚ)
    (hsupp : supportedFFTLength blk.length = true)
    (hx : x.length = blk.length)
    (hbuf : blk.tmpBuffer_1.length = blk.length)
    (hKlen : ∀ v : List ℚ, v.length = blk.length → (K v).length = blk.length)
    (hround : ∀ v : List ℚ, v.length = blk.length → Kinv (K v) = v) :
    (CMSIS_DSP_real_IFFT_f32_apply Kinv
        (CMSIS_DSP_real_FFT_f32_apply K blk x).1
        (CMSIS_DSP_real_FFT_f32_apply K blk x).2).2 = x := by
  have h1 : listOverwrite blk.tmpBuffer_1 x blk.length = x :=
    listOverwrite_eq hx hbuf
  have e1 : CMSIS_DSP_real_FFT_f32_apply K blk x
      = ({ blk with tmpBuffer_1 := x }, K x) := by
    unfold CMSIS_DSP_real_FFT_f32_apply
    rw [h1]
  rw [e1]
  show (CMSIS_DSP_real_IFFT_f32_apply Kinv { blk with tmpBuffer_1 := x }
      (K x)).2 = x
  unfold CMSIS_DSP_real_IFFT_f32_apply
  show Kinv (listOverwrite x (K x) blk.length) = x
  rw [listOverwrite_eq (hKlen x hx) hx]
  exact hround x hx

/-- Witness for C2 at the supported length `32` with the identity kernel
pair. -/
theorem C2_witness :
    supportedFFTLength 32 = true ∧
    (List.replicate 32 (1 : ℚ)).length = 32 ∧
    (List.replicate 32 (0 : ℚ)).length = 32 ∧
    (CMSIS_DSP_real_IFFT_f32_apply id
        (CMSIS_DSP_real_FFT_f32_apply id
          ⟨32, List.replicate 32 0, List.replicate 32 0⟩
          (List.replicate 32 1)).1
        (CMSIS_DSP_real_FFT_f32_apply id
          ⟨32, List.replicate 32 0, List.replicate 32 0⟩
          (List.replicate 32 1)).2).2
      = List.replicate 32 1 :=
  ⟨by decide, by simp, by simp,
    C2_fft_ifft_round_trip id id
      ⟨32, List.replicate 32 0, List.replicate 32 0⟩ (List.replicate 32 1)
      (by decide) (by simp) (by simp)
      (fun v hv => hv) (fun v _ => rfl)⟩

/-- The squared modulus of packed-spectrum bin `k` of the intermediate
spectrum shared by the magnitude and magnitude-squared pipelines. -/
def binPower (K : List ℚ → List ℚ) (blk : rfft_f32_TypeDef) (x : List ℚ)
    (k : ℕ) : ℚ :=
  (fftScratch2 K blk x).getD (2 * k) 0 ^ 2
    + (fftScratch2 K blk x).getD (2 * k + 1) 0 ^ 2

/-- C7: for every configured block, input buffer and bin index
`k < length/2`, the `k`-th magnitude squared equals the `k`-th
magnitude-squared output on the same input, given that the square-root
model is exact on the squared modulus that arises at bin `k` (the
"within rounding tolerance" of the spec, exact over `ℚ`). -/
theorem C7_magnitude_consistency (K : List ℚ → List ℚ) (s : ℚ → ℚ)
    (blk : rfft_f32_TypeDef) (x : List ℚ) (k : ℕ)
    (hk : k < blk.length / 2)
    (hs : s (binPower K blk x k) ^ 2 = binPower K blk x k) :
    ((CMSIS_DSP_magnitude_FFT_f32_apply K s blk x).2.getD k 0) ^ 2
      = (CMSIS_DSP_magnitudeSquare_FFT_f32_apply K blk x).2.getD k 0 := by
  show ((arm_cmplx_mag_f32 s (fftScratch2 K blk x)
      (blk.length / 2)).getD k 0) ^ 2
    = (arm_cmplx_mag_squared_f32 (fftScratch2 K blk x)
        (blk.length / 2)).getD k 0
  unfold arm_cmplx_mag_f32 arm_cmplx_mag_squared_f32
  rw [getD_range_map _ hk, getD_range_map _ hk]
  exact hs

/-- Witness for C7 with a kernel producing the spectrum `[3, 4]` and a
square-root model fixing `sqrt 25 = 5`. -/
theorem C7_witness :
    0 < 1 ∧
    ((fun q => if q = 25 then (5 : ℚ) else 0)
        (binPower (fun _ => [3, 4]) ⟨2, [0, 0], [0, 0]⟩ [1, 1] 0)) ^ 2
      = binPower (fun _ => [3, 4]) ⟨2, [0, 0], [0, 0]⟩ [1, 1] 0 ∧
    ((CMSIS_DSP_magnitude_FFT_f32_apply (fun _ => [3, 4])
        (fun q => if q = 25 then (5 : ℚ) else 0)
        ⟨2, [0, 0], [0, 0]⟩ [1, 1]).2.getD 0 0) ^ 2
      = (CMSIS_DSP_magnitudeSquare_FFT_f32_apply (fun _ => [3, 4])
          ⟨2, [0, 0], [0, 0]⟩ [1, 1]).2.getD 0 0 :=
  ⟨by decide, by norm_num [binPower, fftScratch2, listOverwrite],
    C7_magnitude_consistency (fun _ => [3, 4])
      (fun q => if q = 25 then (5 : ℚ) else 0)
      ⟨2, [0, 0], [0, 0]⟩ [1, 1] 0 (by decide)
      (by norm_num [binPower, fftScratch2, listOverwrite])⟩

/-- What the kernel writes at its destination: the FIR outputs computed
from the coefficients, the retained history and the source samples, all as
they stood when the kernel was entered — provided the state buffer does not
overlap the destination. -/
theorem arm_fir_f32_dst_reads (m : Mem) (blk : firMemBlock) (srcB dst : ℕ)
    (hd : regionsDisjoint blk.stateBase (blk.numTap - 1) dst blk.blockSize) :
    readList (arm_fir_f32 m blk srcB dst) dst blk.blockSize
      = firOutputs (readList m blk.coeffBase blk.numTap)
          (readList m blk.stateBase (blk.numTap - 1))
          (readList m srcB blk.blockSize) blk.numTap blk.blockSize := by
  set ys := firOutputs (readList m blk.coeffBase blk.numTap)
      (readList m blk.stateBase (blk.numTap - 1))
      (readList m srcB blk.blockSize) blk.numTap blk.blockSize with hys
  set hist := firNewHistory (readList m blk.stateBase (blk.numTap - 1))
      (readList m srcB blk.blockSize) blk.numTap blk.blockSize with hhist
  show readList (writeList (writeList m dst ys) blk.stateBase hist) dst
      blk.blockSize = ys
  rw [readList_writeList_of_disjoint _ _ _ _ _
    (by rw [hhist, firNewHistory_length]; exact hd)]
  calc readList (writeList m dst ys) dst blk.blockSize
      = readList (writeList m dst ys) dst ys.length := by
        rw [hys, firOutputs_length]
    _ = ys := readList_writeList_self _ _ _

/-- A region disjoint from both the destination and the state buffer is
unchanged by the kernel. -/
theorem arm_fir_f32_preserves_region (m : Mem) (blk : firMemBlock)
    (srcB dst b n : ℕ)
    (h1 : regionsDisjoint dst blk.blockSize b n)
    (h2 : regionsDisjoint blk.stateBase (blk.numTap - 1) b n) :
    readList (arm_fir_f32 m blk srcB dst) b n = readList m b n := by
  set ys := firOutputs (readList m blk.coeffBase blk.numTap)
      (readList m blk.stateBase (blk.numTap - 1))
      (readList m srcB blk.blockSize) blk.numTap blk.blockSize with hys
  set hist := firNewHistory (readList m blk.stateBase (blk.numTap - 1))
      (readList m srcB blk.blockSize) blk.numTap blk.blockSize with hhist
  show readList (writeList (writeList m dst ys) blk.stateBase hist) b n
      = readList m b n
  rw [readList_writeList_of_disjoint _ _ _ _ _
        (by rw [hhist, firNewHistory_length]; exact h2),
      readList_writeList_of_disjoint _ _ _ _ _
        (by rw [hys, firOutputs_length]; exact h1)]

/-- C8: the FIR apply operation first copies the input into the block's
scratch buffer (second conjunct), so the output produced when the output
buffer is the very input buffer equals the output produced when the two
buffers are distinct (first conjunct).  The hypotheses say the block's own
buffers (coefficients, state of length `numTap + blockSize - 1`, scratch)
are disjoint from each other's relevant regions and from the caller's
input/output regions — the aliasing the claim is about, `inB = outB`, is
the one overlap deliberately not excluded. -/
theorem C8_fir_aliased_output_eq (m : Mem) (blk : firMemBlock)
    (inB outB : ℕ)
    (hsi : regionsDisjoint blk.stateBase (blk.numTap + blk.blockSize - 1)
      inB blk.blockSize)
    (hso : regionsDisjoint blk.stateBase (blk.numTap + blk.blockSize - 1)
      outB blk.blockSize)
    (hstmp : regionsDisjoint blk.stateBase (blk.numTap + blk.blockSize - 1)
      blk.tmpBase blk.blockSize)
    (hti : regionsDisjoint blk.tmpBase blk.blockSize inB blk.blockSize)
    (hto : regionsDisjoint blk.tmpBase blk.blockSize outB blk.blockSize)
    (hci : regionsDisjoint blk.coeffBase blk.numTap inB blk.blockSize)
    (hco : regionsDisjoint blk.coeffBase blk.numTap outB blk.blockSize) :
    readList (CMSIS_DSP_FIR_f32_apply m blk inB inB) inB blk.blockSize
        = readList (CMSIS_DSP_FIR_f32_apply m blk inB outB) outB
            blk.blockSize ∧
    readList (CMSIS_DSP_FIR_f32_apply m blk inB outB) blk.tmpBase
        blk.blockSize
      = readList m inB blk.blockSize := by
  have hmono : blk.numTap - 1 ≤ blk.numTap + blk.blockSize - 1 := by omega
  have hsi' := regionsDisjoint_mono_left hmono hsi
  have hso' := regionsDisjoint_mono_left hmono hso
  have hst' := regionsDisjoint_mono_left hmono hstmp
  constructor
  · unfold CMSIS_DSP_FIR_f32_apply
    rw [arm_fir_f32_dst_reads _ _ _ _ hsi', arm_fir_f32_dst_reads _ _ _ _ hso']
  · unfold CMSIS_DSP_FIR_f32_apply
    rw [arm_fir_f32_preserves_region _ _ _ _ _ _
      (regionsDisjoint_symm hto) hst']
    unfold firScratchMem
    calc readList (writeList m blk.tmpBase (readList m inB blk.blockSize))
          blk.tmpBase blk.blockSize
        = readList (writeList m blk.tmpBase (readList m inB blk.blockSize))
            blk.tmpBase (readList m inB blk.blockSize).length := by
          rw [readList_length]
      _ = readList m inB blk.blockSize := readList_writeList_self _ _ _

/-- Witness for C8 with a concrete memory and disjoint regions
(`T = 2`, `B = 3`, coefficients at 20, state at 10, scratch at 0, input at
30, distinct output at 40). -/
theorem C8_witness :
    regionsDisjoint 10 (2 + 3 - 1) 30 3 ∧
    regionsDisjoint 10 (2 + 3 - 1) 40 3 ∧
    regionsDisjoint 10 (2 + 3 - 1) 0 3 ∧
    regionsDisjoint 0 3 30 3 ∧ regionsDisjoint 0 3 40 3 ∧
    regionsDisjoint 20 2 30 3 ∧ regionsDisjoint 20 2 40 3 ∧
    (readList (CMSIS_DSP_FIR_f32_apply (fun i => (i : ℚ)) ⟨2, 3, 20, 10, 0⟩
          30 30) 30 3
        = readList (CMSIS_DSP_FIR_f32_apply (fun i => (i : ℚ))
            ⟨2, 3, 20, 10, 0⟩ 30 40) 40 3 ∧
     readList (CMSIS_DSP_FIR_f32_apply (fun i => (i : ℚ)) ⟨2, 3, 20, 10, 0⟩
          30 40) 0 3
        = readList (fun i => (i : ℚ)) 30 3) :=
  ⟨by decide, by decide, by decide, by decide, by decide, by decide,
    by decide,
    C8_fir_aliased_output_eq (fun i => (i : ℚ)) ⟨2, 3, 20, 10, 0⟩ 30 40
      (by decide) (by decide) (by decide) (by decide) (by decide)
      (by decide) (by decide)⟩

